import Mathlib

/-! Verification development for a hand-built HTTP/1.1 server engine.
The Rust sources (thread pool, buffered stream, request parser, response
encoder, token manager, router) are shallowly embedded below; strings are
modelled as lists of characters, the byte stream as a list of chunks, and
the hash-map state as association lists.  Theorems at the end settle the
documented properties of the engine. -/

set_option maxHeartbeats 1000000

/-- Strings are modelled as lists of characters. -/
abbrev Str := List Char

/-- Character-wise lowercasing (model of Rust `to_lowercase` on the ASCII
header names this server manipulates). -/
def toLowerStr (s : Str) : Str := s.map Char.toLower

/-- Whitespace test (model of Rust `char::is_whitespace` on the characters
that occur in HTTP messages). -/
def isWs (c : Char) : Bool := c == ' ' || c == '\t' || c == '\n' || c == '\r'

/-- Model of Rust `str::trim`. -/
def trimStr (s : Str) : Str := ((s.dropWhile isWs).reverse.dropWhile isWs).reverse

/-- Model of Rust `str::trim_start_matches` with a one-character pattern. -/
def trimStartMatches (c : Char) (s : Str) : Str := s.dropWhile (fun a => a == c)

/-- Model of Rust `str::trim_end_matches` with a one-character pattern. -/
def trimEndMatches (c : Char) (s : Str) : Str := (s.reverse.dropWhile (fun a => a == c)).reverse

/-- Model of Rust `str::trim_matches` with a one-character pattern. -/
def trimMatches (c : Char) (s : Str) : Str := trimEndMatches c (trimStartMatches c s)

/-- Model of Rust `str::starts_with`. -/
def isPrefixSeq : Str → Str → Bool
  | [], _ => true
  | _ :: _, [] => false
  | a :: xs, b :: ys => a == b && isPrefixSeq xs ys

/-- Model of Rust `str::contains` with a literal needle. -/
def containsSeq (needle : Str) : Str → Bool
  | [] => needle.isEmpty
  | c :: rest => isPrefixSeq needle (c :: rest) || containsSeq needle rest

/-- Model of Rust `str::split_once` on a separator character (also of a
`find`-then-slice pair, which is the same operation). -/
def splitOnceChar (sep : Char) : Str → Option (Str × Str)
  | [] => none
  | c :: rest =>
    if c == sep then some ([], rest)
    else
      match splitOnceChar sep rest with
      | some p => some (c :: p.1, p.2)
      | none => none

theorem splitOnceChar_eq {sep : Char} :
    ∀ {s a b : Str}, splitOnceChar sep s = some (a, b) → s = a ++ sep :: b := by
  intro s
  induction s with
  | nil => intro a b h; simp [splitOnceChar] at h
  | cons c rest ih =>
    intro a b h
    by_cases hc : c == sep
    · simp [splitOnceChar, hc] at h
      obtain ⟨ha, hb⟩ := h
      subst ha; subst hb
      simp [eq_of_beq hc]
    · simp [splitOnceChar, hc] at h
      match hrec : splitOnceChar sep rest with
      | none => rw [hrec] at h; simp at h
      | some p =>
        rw [hrec] at h
        simp at h
        obtain ⟨ha, hb⟩ := h
        have := ih (a := p.1) (b := p.2) hrec
        subst hb
        rw [← ha, this]
        simp

theorem splitOnceChar_snd_length_lt {sep : Char} {s a b : Str}
    (h : splitOnceChar sep s = some (a, b)) : b.length < s.length := by
  have := splitOnceChar_eq h
  subst this
  simp
  omega

theorem dropWhile_length_le (p : Char → Bool) (l : Str) :
    (l.dropWhile p).length ≤ l.length := by
  induction l with
  | nil => simp
  | cons c rest ih =>
    by_cases h : p c
    · simp [List.dropWhile, h]; omega
    · simp [List.dropWhile, h]

/-- Token-accumulation loop of `splitWhitespace`; `cur` holds the token
being read, in reverse. -/
def splitWsAux : Str → Str → List Str
  | [], cur => if cur.isEmpty then [] else [cur.reverse]
  | c :: rest, cur =>
    if isWs c then
      (if cur.isEmpty then splitWsAux rest [] else cur.reverse :: splitWsAux rest [])
    else splitWsAux rest (c :: cur)

/-- Model of Rust `str::split_whitespace`: maximal runs of non-whitespace
characters, with no empty tokens. -/
def splitWhitespace (s : Str) : List Str := splitWsAux s []

/-- Line-accumulation loop of `rustLines`; `cur` holds the line being
read, in reverse.  A newline emits the line with the one carriage return
directly preceding the newline stripped; a final line without newline is
emitted as is. -/
def rustLinesAux : Str → Str → List Str
  | [], cur => if cur.isEmpty then [] else [cur.reverse]
  | c :: rest, cur =>
    if c = '\n' then
      (match cur with
       | '\r' :: cur2 => cur2.reverse
       | _ => cur.reverse) :: rustLinesAux rest []
    else rustLinesAux rest (c :: cur)

/-- Model of Rust `str::lines`: terminator-style split on the newline
character, stripping the carriage return that directly precedes each
newline. -/
def rustLines (s : Str) : List Str := rustLinesAux s []

/-- Hex digit character for a value below sixteen, uppercase when the flag
is set (the digit alphabet of Rust `\x7b:X\x7d` and `\x7b:x\x7d`). -/
def hexDigit (upper : Bool) (d : Nat) : Char :=
  if d < 10 then Char.ofNat (48 + d)
  else if upper then Char.ofNat (55 + d)
  else Char.ofNat (87 + d)

/-- Hex representation of a natural number, most significant digit first,
no leading zeros (Rust `\x7b:X\x7d` / `\x7b:x\x7d` formatting). -/
def toHex (upper : Bool) (n : Nat) : Str :=
  if n < 16 then [hexDigit upper n]
  else toHex upper (n / 16) ++ [hexDigit upper (n % 16)]
termination_by n
decreasing_by
  exact Nat.div_lt_self (by omega) (by omega)

/-- Sixteen-digit zero-padded lowercase hex (Rust `format!` with the
`\x7b:016x\x7d` specifier applied to a 64-bit hash value). -/
def hexPad16 (n : Nat) : Str :=
  List.replicate (16 - (toHex false n).length) '0' ++ toHex false n

/-- Value of one hex digit character, accepting both cases (as Rust
`u8::from_str_radix(_, 16)` does). -/
def parseHexDigit (c : Char) : Option Nat :=
  if '0' ≤ c ∧ c ≤ '9' then some (c.toNat - 48)
  else if 'A' ≤ c ∧ c ≤ 'F' then some (c.toNat - 55)
  else if 'a' ≤ c ∧ c ≤ 'f' then some (c.toNat - 87)
  else none

/-- Accumulator loop for reading a hex numeral. -/
def parseHexAux (acc : Nat) : Str → Option Nat
  | [] => some acc
  | c :: rest =>
    match parseHexDigit c with
    | some d => parseHexAux (16 * acc + d) rest
    | none => none

/-- Hex numeral reader: at least one digit, all characters hex digits. -/
def parseHexNat (s : Str) : Option Nat :=
  match s with
  | [] => none
  | _ :: _ => parseHexAux 0 s

theorem parseHexDigit_hexDigit :
    ∀ (upper : Bool) (d : Nat), d < 16 → parseHexDigit (hexDigit upper d) = some d := by
  decide

theorem parseHexAux_append (a b : Str) :
    ∀ acc, parseHexAux acc (a ++ b) =
      match parseHexAux acc a with
      | some m => parseHexAux m b
      | none => none := by
  induction a with
  | nil => intro acc; simp [parseHexAux]
  | cons c rest ih =>
    intro acc
    simp only [List.cons_append, parseHexAux]
    match parseHexDigit c with
    | some d => simp [ih]
    | none => simp

theorem toHex_ne_nil (upper : Bool) (n : Nat) : toHex upper n ≠ [] := by
  rw [toHex]
  by_cases h : n < 16 <;> simp [h]

theorem parseHexAux_toHex (upper : Bool) :
    ∀ n acc, parseHexAux acc (toHex upper n) =
      some (acc * 16 ^ (toHex upper n).length + n) := by
  intro n
  induction n using Nat.strong_induction_on with
  | _ n ih =>
    intro acc
    by_cases h : n < 16
    · rw [toHex]
      simp only [h, if_pos]
      simp [parseHexAux, parseHexDigit_hexDigit upper n h]
      ring
    · rw [toHex]
      simp only [h, if_neg, not_false_iff]
      rw [parseHexAux_append]
      have hdiv : n / 16 < n := Nat.div_lt_self (by omega) (by omega)
      rw [ih (n / 16) hdiv acc]
      have hmod : n % 16 < 16 := Nat.mod_lt _ (by omega)
      simp only [parseHexAux, parseHexDigit_hexDigit upper _ hmod]
      have harith : 16 * (acc * 16 ^ (toHex upper (n / 16)).length + n / 16) + n % 16
          = acc * 16 ^ ((toHex upper (n / 16)).length + 1) + n := by
        have hdm : 16 * (n / 16) + n % 16 = n := by omega
        calc 16 * (acc * 16 ^ (toHex upper (n / 16)).length + n / 16) + n % 16
            = acc * (16 ^ (toHex upper (n / 16)).length * 16) + (16 * (n / 16) + n % 16) := by
              ring
          _ = acc * 16 ^ ((toHex upper (n / 16)).length + 1) + n := by
              rw [hdm, pow_succ]
      rw [harith]
      simp [parseHexAux]

theorem parseHexNat_toHex (upper : Bool) (n : Nat) :
    parseHexNat (toHex upper n) = some n := by
  have hne := toHex_ne_nil upper n
  match hth : toHex upper n with
  | [] => exact absurd hth hne
  | c :: rest =>
    have := parseHexAux_toHex upper n 0
    rw [hth] at this
    simp [parseHexNat, this]

theorem parseHexAux_replicate_zero (k : Nat) (s : Str) :
    parseHexAux 0 (List.replicate k '0' ++ s) = parseHexAux 0 s := by
  induction k with
  | zero => simp
  | succ m ih =>
    have h0 : parseHexDigit '0' = some 0 := by decide
    simp [List.replicate, parseHexAux, h0, ih]

theorem parseHexAux_hexPad16 (n : Nat) : parseHexAux 0 (hexPad16 n) = some n := by
  rw [hexPad16, parseHexAux_replicate_zero]
  have := parseHexAux_toHex false n 0
  simpa using this

theorem hexPad16_injective {a b : Nat} (h : hexPad16 a = hexPad16 b) : a = b := by
  have ha := parseHexAux_hexPad16 a
  have hb := parseHexAux_hexPad16 b
  rw [h] at ha
  rw [ha] at hb
  exact Option.some_injective _ hb

/-- Lookup in the association-list model of the server's hash maps. -/
def alookup {α : Type} (k : Str) : List (Str × α) → Option α
  | [] => none
  | p :: rest => if p.1 = k then some p.2 else alookup k rest

/-- Removal of a key from the association-list map model. -/
def aremove {α : Type} (k : Str) (m : List (Str × α)) : List (Str × α) :=
  m.filter (fun p => decide (p.1 ≠ k))

/-- Insert replaces any previous binding of the key, like a hash-map
insert; iteration order of the map is not observable by any claim. -/
def ainsert {α : Type} (k : Str) (v : α) (m : List (Str × α)) : List (Str × α) :=
  (k, v) :: aremove k m

theorem alookup_aremove_self {α : Type} (k : Str) (m : List (Str × α)) :
    alookup k (aremove k m) = none := by
  induction m with
  | nil => rfl
  | cons p rest ih =>
    by_cases h : p.1 = k
    · simp [aremove, List.filter, h] at ih ⊢
      exact ih
    · simp [aremove, List.filter, h] at ih ⊢
      simp [alookup, h, ih]

theorem alookup_ainsert_self {α : Type} (k : Str) (v : α) (m : List (Str × α)) :
    alookup k (ainsert k v m) = some v := by
  simp [ainsert, alookup]

theorem aremove_ainsert_self {α : Type} (k : Str) (v : α) (m : List (Str × α)) :
    aremove k (ainsert k v m) = aremove k m := by
  simp [ainsert, aremove, List.filter]

/-- Decimal representation of a natural number (Rust `Display` for sizes). -/
def natRepr (n : Nat) : Str := (Nat.repr n).data

/-- Model of `HttpResponse` (src/lib/response.rs): status code, reason
text, header map and body. -/
structure HttpResponse where
  status_code : Nat
  status_text : Str
  headers : List (Str × Str)
  body : Str
deriving DecidableEq

namespace HttpResponse

/-- Model of `HttpResponse::new`. -/
def new (status_code : Nat) (status_text : Str) : HttpResponse :=
  ⟨status_code, status_text, [], []⟩

/-- Model of `HttpResponse::with_header`. -/
def with_header (r : HttpResponse) (k v : Str) : HttpResponse :=
  ⟨r.status_code, r.status_text, ainsert k v r.headers, r.body⟩

/-- Model of `HttpResponse::with_body`: sets the body and automatically
sets the `Content-Length` header. -/
def with_body (r : HttpResponse) (b : Str) : HttpResponse :=
  ⟨r.status_code, r.status_text,
    ainsert (("Content-Length").data) (natRepr b.length) r.headers, b⟩

/-- Model of `HttpResponse::with_content_type`. -/
def with_content_type (r : HttpResponse) (ct : Str) : HttpResponse :=
  with_header r (("Content-Type").data) ct

/-- Model of `HttpResponse::with_connection`. -/
def with_connection (r : HttpResponse) (c : Str) : HttpResponse :=
  with_header r (("Connection").data) c

/-- Model of `HttpResponse::with_chunked_encoding`. -/
def with_chunked_encoding (r : HttpResponse) : HttpResponse :=
  with_header r (("Transfer-Encoding").data) (("chunked").data)

/-- Status line `HTTP/1.1 code reason` with CRLF (response.rs line 50/71). -/
def statusLine (r : HttpResponse) : Str :=
  ("HTTP/1.1 ").data ++ natRepr r.status_code ++ [' '] ++ r.status_text ++ ("\r\n").data

/-- One wire header line `Key: Value` with CRLF. -/
def headerLine (p : Str × Str) : Str :=
  p.1 ++ (": ").data ++ p.2 ++ ("\r\n").data

/-- Model of `HttpResponse::format`. -/
def format (r : HttpResponse) : Str :=
  statusLine r ++ (r.headers.map headerLine).join ++ ("\r\n").data ++ r.body

/-- Header filter of the chunked encoder: keeps a header unless its
lowercased name is `content-length` or `transfer-encoding`
(response.rs line 75). -/
def chunkedHeaderKept (p : Str × Str) : Bool :=
  !(toLowerStr p.1 == ("content-length").data)
    && !(toLowerStr p.1 == ("transfer-encoding").data)

/-- Chunk section of a chunked response: one uppercase-hex-sized chunk
when the body is non-empty, then always the final `0` chunk marker
(response.rs lines 87-95). -/
def chunkStream (body : Str) : Str :=
  (if body.isEmpty then []
    else toHex true body.length ++ ("\r\n").data ++ body ++ ("\r\n").data)
  ++ ("0\r\n\r\n").data

/-- Model of `HttpResponse::format_chunked` (response.rs lines 67-98). -/
def format_chunked (r : HttpResponse) : Str :=
  statusLine r
  ++ ((r.headers.filter chunkedHeaderKept).map headerLine).join
  ++ ("Transfer-Encoding: chunked\r\n").data
  ++ ("\r\n").data
  ++ chunkStream r.body

end HttpResponse

/-- Model of `hex_encode` (auth.rs lines 204-208): every byte printed as
two lowercase hex digits. -/
def hex_encode (bytes : List Nat) : Str :=
  (bytes.map (fun b => [hexDigit false (b / 16 % 16), hexDigit false (b % 16)])).join

/-- Pair loop of `hex_decode`: reads two hex digits per byte. -/
def hexDecodePairs : Str → Except Str (List Nat)
  | [] => .ok []
  | c1 :: c2 :: rest =>
    match parseHexDigit c1, parseHexDigit c2 with
    | some d1, some d2 =>
      match hexDecodePairs rest with
      | .ok l => .ok ((16 * d1 + d2) :: l)
      | .error e => .error e
    | _, _ => .error (("Invalid hex character").data)
  | [_] => .error (("Invalid hex character").data)

/-- Model of `hex_decode` (auth.rs lines 211-223). -/
def hex_decode (s : Str) : Except Str (List Nat) :=
  if s.length % 2 ≠ 0 then .error (("Invalid hex string length").data)
  else hexDecodePairs s

/-- Model of `hash_password` (auth.rs lines 175-185).  The standard
library's `DefaultHasher` pipeline (hash the salt bytes, hash the
password, `finish`) lives outside this repository and is abstracted as
the parameter `hashFn`; every theorem below holds for an arbitrary hash
function. -/
def hash_password (hashFn : List Nat → Str → Nat) (password : Str) (salt : List Nat) : Str :=
  hex_encode salt ++ ':' :: hexPad16 (hashFn salt password)

/-- Model of `verify_password` (auth.rs lines 188-201), with the same
`hashFn` abstraction as `hash_password`. -/
def verify_password (hashFn : List Nat → Str → Nat) (password : Str) (stored_hash : Str) : Bool :=
  match splitOnceChar ':' stored_hash with
  | some p =>
    match hex_decode p.1 with
    | .ok salt => hexPad16 (hashFn salt password) == p.2
    | .error _ => false
  | none => false

/-- Model of `HttpRequest` (src/lib/request.rs lines 3-10). -/
structure HttpRequest where
  method : Str
  path : Str
  version : Str
  headers : List (Str × Str)
  body : Str
deriving DecidableEq

/-- Header-collection loop of `HttpRequest::parse` (request.rs lines
34-45): walks the lines after the request line up to the first empty
line, inserting pairs split at the first colon, with trimmed lowercased
keys and trimmed values (last write per key wins). -/
def collectHeaders : List Str → List (Str × Str) → List (Str × Str)
  | [], acc => acc
  | l :: rest, acc =>
    if l.isEmpty then acc
    else
      match splitOnceChar ':' l with
      | some p => collectHeaders rest (ainsert (toLowerStr (trimStr p.1)) (trimStr p.2) acc)
      | none => collectHeaders rest acc

/-- Model of `HttpRequest::parse` (request.rs lines 13-61). -/
def HttpRequest.parse (request_data : Str) : Except Str HttpRequest :=
  match rustLines request_data with
  | [] => .error (("Empty request").data)
  | l0 :: rest =>
    match splitWhitespace l0 with
    | [m, p, v] =>
      let headers := collectHeaders rest []
      let header_end_index :=
        match rest.findIdx? (fun l => l.isEmpty) with
        | some i => 1 + i
        | none => 1
      let body :=
        if header_end_index + 1 < (l0 :: rest).length then
          List.intercalate ([ '\n' ]) ((l0 :: rest).drop (header_end_index + 1))
        else []
      .ok ⟨m, p, v, headers, body⟩
    | _ => .error (("Invalid request line").data)

/-- Model of `AuthToken` (auth.rs lines 14-18); expiry in epoch seconds. -/
structure AuthToken where
  token : Str
  username : Str
  expires_at : Nat
deriving DecidableEq

/-- State of `TokenManager`: the token map guarded by its mutex. -/
abbrev TokenStore := List (Str × AuthToken)

namespace TokenManager

/-- Model of `TokenManager::generate_token` (auth.rs lines 33-50).  The
fresh opaque token string (minted from the system clock by the free
function `generate_token`) and the current time are inputs of the model. -/
def generate_token (st : TokenStore) (freshTok : Str) (username : Str) (now : Nat) :
    TokenStore × Str :=
  (ainsert freshTok ⟨freshTok, username, now + 3600⟩ st, freshTok)

/-- Model of `TokenManager::validate_token` (auth.rs lines 53-70): a
present unexpired token yields its username, a present expired token is
evicted, an absent token yields nothing. -/
def validate_token (st : TokenStore) (token : Str) (now : Nat) :
    TokenStore × Option Str :=
  match alookup token st with
  | some tk =>
    if now < tk.expires_at then (st, some tk.username)
    else (aremove token st, none)
  | none => (st, none)

/-- Model of `TokenManager::revoke_token` (auth.rs lines 73-79): removes
the entry and reports whether it existed. -/
def revoke_token (st : TokenStore) (token : Str) : TokenStore × Bool :=
  (aremove token st, (alookup token st).isSome)

/-- Model of `TokenManager::cleanup_expired_tokens` (auth.rs lines 82-91). -/
def cleanup_expired_tokens (st : TokenStore) (now : Nat) : TokenStore :=
  st.filter (fun p => decide (now < p.2.expires_at))

end TokenManager

/-- State of the `ThreadPool` admission machinery: the atomic counter of
active connections and the queue of admitted jobs (jobs carry ids). -/
structure PoolState where
  active : Nat
  queue : List Nat
deriving DecidableEq

namespace ThreadPool

/-- Model of `ThreadPool::execute` (thread_pool.rs lines 80-102): reads
the counter, rejects with the capacity error when it has reached the
maximum (nothing is enqueued), otherwise increments the counter and
enqueues the wrapped job. -/
def execute (max_connections : Nat) (st : PoolState) (job : Nat) : Except Str PoolState :=
  if st.active ≥ max_connections then .error (("Maximum connections reached").data)
  else .ok ⟨st.active + 1, st.queue ++ [job]⟩

/-- A worker running the oldest admitted job to completion: the wrapped
job's trailing `fetch_sub` decrements the counter (thread_pool.rs lines
94-98). -/
def finish_job (st : PoolState) : PoolState :=
  match st.queue with
  | [] => st
  | _ :: rest => ⟨st.active - 1, rest⟩

/-- One event of the serialized admission state machine: an `execute`
call or a job completing on a worker. -/
inductive PoolEvent where
  | exec (job : Nat)
  | finish
deriving DecidableEq

/-- Transition of the admission state machine; a rejected `execute`
leaves the state unchanged. -/
def step (max_connections : Nat) (st : PoolState) (e : PoolEvent) : PoolState :=
  match e with
  | .exec j =>
    match execute max_connections st j with
    | .ok st2 => st2
    | .error _ => st
  | .finish => finish_job st

/-- Run of the admission state machine from the initial state (counter
zero, empty queue). -/
def run (max_connections : Nat) (evs : List PoolEvent) : PoolState :=
  evs.foldl (step max_connections) ⟨0, []⟩

/-- Model of the closure wrapping a job (thread_pool.rs lines 94-98):
run the job body, then decrement the counter with `fetch_sub`.  A body
that panics (`Except.error`) unwinds past the decrement, so the counter
is returned unchanged and the panic propagates to the worker. -/
def run_wrapped_job (body : Except Unit Unit) (active : Nat) : Nat × Except Unit Unit :=
  match body with
  | .ok _ => (active - 1, .ok ())
  | .error e => (active, .error e)

end ThreadPool

/-- Model of `create_login_response` (auth.rs lines 257-259). -/
def create_login_response (token : Str) : Str :=
  ("\x7b\"success\": true, \"token\": \"").data ++ token ++ ("\"\x7d").data

/-- Model of `create_error_response` (auth.rs lines 262-264). -/
def create_error_response (message : Str) : Str :=
  ("\x7b\"success\": false, \"error\": \"").data ++ message ++ ("\"\x7d").data

/-- One field of the hand-rolled JSON scanner of `parse_login_request`
(auth.rs lines 235-247): split at the first colon, trim and unquote key
and value, update the username/password accumulator (later fields win). -/
def loginField (acc : Option Str × Option Str) (field : Str) : Option Str × Option Str :=
  let f := trimStr field
  match splitOnceChar ':' f with
  | some p =>
    let key := trimMatches '"' (trimStr p.1)
    let value := trimMatches '"' (trimStr p.2)
    if key = ("username").data then (some value, acc.2)
    else if key = ("password").data then (acc.1, some value)
    else acc
  | none => acc

/-- Model of `parse_login_request` (auth.rs lines 226-254). -/
def parse_login_request (json_body : Str) : Option (Str × Str) :=
  let cleaned := trimEndMatches (Char.ofNat 125) (trimStartMatches (Char.ofNat 123) (trimStr json_body))
  let fields := cleaned.splitOn ','
  match fields.foldl loginField (none, none) with
  | (some u, some p) => some (u, p)
  | _ => none

/-- Model of `Router::handle_login` (router.rs lines 392-423).  The
router's user map enters as `auth_users` (username to stored password
hash), the fresh token that `generate_token` would mint on the success
path enters as `freshTok`, and `hashFn` abstracts the standard hasher
exactly as in `verify_password`. -/
def Router.handle_login (hashFn : List Nat → Str → Nat) (auth_users : List (Str × Str))
    (freshTok : Str) (method : Str) (body : Str) : HttpResponse :=
  if method ≠ ("POST").data then
    ((HttpResponse.new 405 (("Method Not Allowed").data)).with_content_type
      (("application/json").data)).with_body
      (create_error_response (("Only POST method allowed").data))
  else
    match parse_login_request body with
    | some up =>
      match alookup up.1 auth_users with
      | some stored_hash =>
        if verify_password hashFn up.2 stored_hash then
          ((HttpResponse.new 200 (("OK").data)).with_content_type
            (("application/json").data)).with_body (create_login_response freshTok)
        else
          ((HttpResponse.new 401 (("Unauthorized").data)).with_content_type
            (("application/json").data)).with_body
            (create_error_response (("Invalid username or password").data))
      | none =>
        ((HttpResponse.new 401 (("Unauthorized").data)).with_content_type
          (("application/json").data)).with_body
          (create_error_response (("Invalid username or password").data))
    | none =>
      ((HttpResponse.new 400 (("Bad Request").data)).with_content_type
        (("application/json").data)).with_body
        (create_error_response (("Invalid JSON format. Expected \x7b\"username\": \"...\", \"password\": \"...\"\x7d").data))

/-- Abstract file-system entry for the static-file resolver; the model
logs accesses instead of touching a real file system. -/
inductive FsEntry where
  | dir
  | file (content : Str)
  | readFailure
  | absent

namespace Router

/-- Path arithmetic of `Router::serve_static_file` (router.rs lines
170-180): the textual file path resolved from the request path. -/
def resolve_static_path (static_dir : Str) (path : Str) : Str :=
  if path = [ '/' ] then static_dir ++ ("/index.html").data
  else if path = ('/' :: static_dir) ∨ path = (('/' :: static_dir) ++ [ '/' ]) then static_dir
  else if isPrefixSeq (('/' :: static_dir) ++ [ '/' ]) path then
    static_dir ++ path.drop (static_dir.length + 1)
  else static_dir ++ path

/-- Model of `Router::get_content_type` (router.rs lines 318-330). -/
def get_content_type (file_path : Str) : Str :=
  match (file_path.splitOn '.').getLast? with
  | some ext =>
    if ext = ("html").data then ("text/html").data
    else if ext = ("css").data then ("text/css").data
    else if ext = ("js").data then ("application/javascript").data
    else if ext = ("json").data then ("application/json").data
    else if ext = ("png").data then ("image/png").data
    else if ext = ("jpg").data ∨ ext = ("jpeg").data then ("image/jpeg").data
    else if ext = ("gif").data then ("image/gif").data
    else if ext = ("txt").data then ("text/plain").data
    else ("text/plain").data
  | none => ("text/plain").data

/-- Model of `Router::serve_static_file` (router.rs lines 168-222).  The
file system enters as the oracle `fs`; the directory-listing renderer
`serve_directory_listing` enters as `listing`.  The second component of
the result records every path on which a file-system operation
(`exists`/`is_dir`/`read_to_string`/`read_dir`) was performed. -/
def serve_static_file (fs : Str → FsEntry) (listing : Str → Str → HttpResponse)
    (static_dir : Option Str) (path : Str) : Option HttpResponse × List Str :=
  match static_dir with
  | none => (none, [])
  | some sd =>
    let file_path := resolve_static_path sd path
    if containsSeq (("..").data) file_path then
      (some (((HttpResponse.new 403 (("Forbidden").data)).with_content_type
        (("text/html").data)).with_body
        (("<h1>403 - Forbidden</h1><p>Directory traversal is not allowed.</p>").data)), [])
    else
      match fs file_path with
      | .dir => (some (listing file_path path), [file_path])
      | .file content =>
        (some (((HttpResponse.new 200 (("OK").data)).with_content_type
          (get_content_type file_path)).with_body content), [file_path])
      | .readFailure =>
        (some (((HttpResponse.new 500 (("Internal Server Error").data)).with_content_type
          (("text/html").data)).with_body
          (("<h1>500 - Internal Server Error</h1><p>Unable to read the requested file.</p>").data)),
          [file_path])
      | .absent => (none, [file_path])

end Router

/-- State of `BufferedStream` reads: the unread slice of the internal
read buffer, and the byte chunks that future `stream.read` calls will
deliver (exhaustion of the list, or an empty chunk, is end of stream). -/
structure BufferedStream where
  buffer : Str
  chunks : List Str

/-- Inner scan of `BufferedStream::read_line` (buffered_stream.rs lines
38-47): walk the buffer looking for a newline byte, pushing every byte
that is neither newline nor carriage return onto the line; on a newline
return the finished line and the unread remainder of the buffer, on
buffer exhaustion return the accumulated line so the outer loop can
refill.  At end of stream (buffered_stream.rs lines 50-54) an empty
accumulated line becomes the `UnexpectedEof` error and a non-empty one
is returned as a line. -/
def scanLine : Str → Str → Sum (Str × Str) Str
  | [], line => Sum.inr line
  | b :: bs, line =>
    if b = '\n' then Sum.inl (line, bs)
    else if b = '\r' then scanLine bs line
    else scanLine bs (line ++ [b])

/-- Refill loop of `read_line`: take the next chunk from the stream (an
exhausted stream or an empty read is end of stream) and scan it. -/
def readLineChunks : List Str → Str → Except Unit Str × Str × List Str
  | [], line => (if line.isEmpty then .error () else .ok line, [], [])
  | c :: rest, line =>
    if c.isEmpty then (if line.isEmpty then .error () else .ok line, [], rest)
    else
      match scanLine c line with
      | Sum.inl p => (.ok p.1, p.2, rest)
      | Sum.inr line2 => readLineChunks rest line2

/-- Body of `read_line` on an explicit state: scan the current buffer
first, then refill from the stream chunks. -/
def readLineAux (buffer : Str) (chunks : List Str) (line : Str) :
    Except Unit Str × Str × List Str :=
  match scanLine buffer line with
  | Sum.inl p => (.ok p.1, p.2, chunks)
  | Sum.inr line2 => readLineChunks chunks line2

/-- Model of `BufferedStream::read_line`. -/
def BufferedStream.read_line (st : BufferedStream) : Except Unit Str × BufferedStream :=
  let r := readLineAux st.buffer st.chunks []
  (r.1, ⟨r.2.1, r.2.2⟩)

/-- Model of the 408 response built on a read timeout (server.rs lines
211-213). -/
def timeout_response : HttpResponse :=
  ((HttpResponse.new 408 (("Request Timeout").data)).with_content_type
    (("text/plain").data)).with_body (("Request timed out").data)

/-- Model of the 400 response built when request parsing fails
(server.rs lines 274-277). -/
def bad_request_response : HttpResponse :=
  (((HttpResponse.new 400 (("Bad Request").data)).with_content_type
    (("text/html").data)).with_connection (("close").data)).with_body
    (("<h1>400 - Bad Request</h1><p>The request could not be parsed.</p>").data)

/-- Connection-header derivation of `handle_connection_threaded`
(server.rs lines 238-247): the request's lowercased `Connection` header,
defaulting to keep-alive exactly for version `HTTP/1.1`. -/
def connection_header_of (req : HttpRequest) : Str :=
  match alookup (("connection").data) req.headers with
  | some v => toLowerStr v
  | none =>
    if req.version = ("HTTP/1.1").data then ("keep-alive").data else ("close").data

/-- Response-production step of `handle_connection_threaded` for one
request (server.rs lines 235-280): parse the request data, route it
(`routeFn` abstracts `router.route`), stamp the `Connection` header from
the keep-alive decision, and compute the keep-alive flag returned to the
connection loop. -/
def handle_request_cycle (routeFn : HttpRequest → HttpResponse) (request_data : Str) :
    HttpResponse × Bool :=
  match HttpRequest.parse request_data with
  | .ok request =>
    let ch := connection_header_of request
    let keep_alive := containsSeq (("keep-alive").data) ch
    let response := routeFn request
    let response :=
      if keep_alive then response.with_connection (("keep-alive").data)
      else response.with_connection (("close").data)
    let supports_chunked :=
      match alookup (("te").data) request.headers with
      | some enc => containsSeq (("chunked").data) enc
      | none => true
    (response, keep_alive && supports_chunked)
  | .error _ => (bad_request_response, false)

/-- Boundary finder for the chunked-body decoder: the text before the
first CRLF pair and the text after it. -/
def splitCRLF : Str → Option (Str × Str)
  | [] => none
  | c :: rest =>
    if c = '\r' ∧ rest.head? = some '\n' then some ([], rest.tail)
    else
      match splitCRLF rest with
      | some p => some (c :: p.1, p.2)
      | none => none

theorem splitCRLF_eq :
    ∀ {s a b : Str}, splitCRLF s = some (a, b) → s = a ++ '\r' :: '\n' :: b := by
  intro s
  induction s with
  | nil => intro a b h; simp [splitCRLF] at h
  | cons c rest ih =>
    intro a b h
    by_cases hc : c = '\r' ∧ rest.head? = some '\n'
    · obtain ⟨hcr, hhd⟩ := hc
      subst hcr
      cases rest with
      | nil => simp at hhd
      | cons r rs =>
        have hr : r = '\n' := by simpa using hhd
        subst hr
        simp [splitCRLF] at h
        obtain ⟨ha, hb⟩ := h
        simp [← ha, ← hb]
    · simp [splitCRLF, hc] at h
      match hrec : splitCRLF rest with
      | none => rw [hrec] at h; simp at h
      | some p =>
        rw [hrec] at h
        simp at h
        obtain ⟨ha, hb⟩ := h
        have := ih hrec
        subst hb
        rw [← ha, this]
        simp

/-- Fuelled reassembly loop of a chunked body, following the wire
grammar: read a hex size line, then that many payload bytes and their
trailing CRLF, repeating until the zero-size chunk, which must be
followed by the final blank line; the decoded result is all chunk
payloads concatenated in order. -/
def reassembleChunksFuel : Nat → Str → Option Str
  | 0, _ => none
  | fuel + 1, s =>
    match splitCRLF s with
    | none => none
    | some p =>
      match parseHexNat p.1 with
      | none => none
      | some n =>
        if n = 0 then (if p.2 = ("\r\n").data then some [] else none)
        else if n ≤ p.2.length ∧ (p.2.drop n).take 2 = ("\r\n").data then
          match reassembleChunksFuel fuel ((p.2.drop n).drop 2) with
          | some tail => some (p.2.take n ++ tail)
          | none => none
        else none

/-- Reassembly of a chunked body; each decoding step consumes at least
one character, so the input length bounds the needed fuel. -/
def reassembleChunks (s : Str) : Option Str := reassembleChunksFuel (s.length + 1) s

theorem thread_pool_step_le (max_connections : Nat) (st : PoolState)
    (e : ThreadPool.PoolEvent) (h : st.active ≤ max_connections) :
    (ThreadPool.step max_connections st e).active ≤ max_connections := by
  cases e with
  | exec j =>
    simp only [ThreadPool.step, ThreadPool.execute]
    by_cases hge : st.active ≥ max_connections
    · simp [hge]
      exact h
    · simp [hge]
      omega
  | finish =>
    simp only [ThreadPool.step]
    cases hq : st.queue with
    | nil => simp [ThreadPool.finish_job, hq]; exact h
    | cons j rest =>
      simp [ThreadPool.finish_job, hq]
      omega

theorem thread_pool_foldl_le (max_connections : Nat) :
    ∀ (evs : List ThreadPool.PoolEvent) (st : PoolState), st.active ≤ max_connections →
      (evs.foldl (ThreadPool.step max_connections) st).active ≤ max_connections := by
  intro evs
  induction evs with
  | nil => intro st h; simpa using h
  | cons e rest ih =>
    intro st h
    simp only [List.foldl_cons]
    exact ih _ (thread_pool_step_le max_connections st e h)

/-- C1: when the admitted count has reached the configured maximum,
`ThreadPool::execute` returns the capacity error and the job is never
enqueued (the state is unchanged); otherwise it increments the count and
enqueues the job; consequently, over every serialized sequence of
execute and job-completion events the observed active-connection count
never exceeds the configured maximum. -/
theorem c1_execute_admission_invariant (max_connections : Nat) :
    (∀ (st : PoolState) (j : Nat), max_connections ≤ st.active →
      ThreadPool.execute max_connections st j
        = .error (("Maximum connections reached").data)) ∧
    (∀ (st : PoolState) (j : Nat), st.active < max_connections →
      ThreadPool.execute max_connections st j
        = .ok ⟨st.active + 1, st.queue ++ [j]⟩) ∧
    (∀ evs : List ThreadPool.PoolEvent,
      (ThreadPool.run max_connections evs).active ≤ max_connections) := by
  refine ⟨?_, ?_, ?_⟩
  · intro st j h
    simp [ThreadPool.execute, h]
  · intro st j h
    simp [ThreadPool.execute, Nat.not_le.mpr h]
  · intro evs
    exact thread_pool_foldl_le max_connections evs ⟨0, []⟩ (by simp)

theorem c1_execute_admission_invariant_witness :
    ThreadPool.execute 2 ⟨2, []⟩ 7 = .error (("Maximum connections reached").data) ∧
    ThreadPool.execute 2 ⟨1, [5]⟩ 7 = .ok ⟨2, [5, 7]⟩ ∧
    (ThreadPool.run 2 [.exec 0, .exec 1, .exec 2, .finish]).active ≤ 2 :=
  ⟨(c1_execute_admission_invariant 2).1 ⟨2, []⟩ 7 (by decide),
   (c1_execute_admission_invariant 2).2.1 ⟨1, [5]⟩ 7 (by decide),
   (c1_execute_admission_invariant 2).2.2 [.exec 0, .exec 1, .exec 2, .finish]⟩

/-- C5: the wrapped job decrements the admission counter only when the
job body returns normally; a body that panics unwinds past the trailing
`fetch_sub`, so with one admitted connection a panicking job leaves the
counter at 1 instead of releasing the slot to 0.  The decrement IS
skipped on panic, contradicting the requirement that it never be. -/
theorem c5_panic_skips_decrement :
    ThreadPool.run_wrapped_job (.error ()) 1 = (1, .error ()) ∧
    ThreadPool.run_wrapped_job (.ok ()) 1 = (0, .ok ()) ∧
    (1 : Nat) ≠ 0 :=
  ⟨rfl, rfl, by decide⟩

/-- C4: lifecycle of `TokenManager` tokens.  A token freshly inserted by
`generate_token` is returned and, while unexpired, validates to the
owning username; after a successful `revoke_token` (which reports true)
the same token no longer validates, and a second revoke reports false;
independently, validating a present-but-expired token evicts it and
yields nothing, and validating an absent token yields nothing. -/
theorem c4_token_lifecycle (st : TokenStore) (tok username : Str) (tg tv : Nat) :
    (TokenManager.generate_token st tok username tg).2 = tok ∧
    (tv < tg + 3600 →
      TokenManager.validate_token (TokenManager.generate_token st tok username tg).1 tok tv
        = ((TokenManager.generate_token st tok username tg).1, some username)) ∧
    (TokenManager.revoke_token (TokenManager.generate_token st tok username tg).1 tok).2
      = true ∧
    TokenManager.validate_token
        (TokenManager.revoke_token (TokenManager.generate_token st tok username tg).1 tok).1
        tok tv
      = ((TokenManager.revoke_token (TokenManager.generate_token st tok username tg).1 tok).1,
          none) ∧
    (TokenManager.revoke_token
        (TokenManager.revoke_token (TokenManager.generate_token st tok username tg).1 tok).1
        tok).2 = false ∧
    (∀ tk, alookup tok st = some tk → tk.expires_at ≤ tv →
      TokenManager.validate_token st tok tv = (aremove tok st, none)) ∧
    (alookup tok st = none → TokenManager.validate_token st tok tv = (st, none)) := by
  refine ⟨rfl, ?_, ?_, ?_, ?_, ?_, ?_⟩
  · intro h
    simp [TokenManager.validate_token, TokenManager.generate_token,
      alookup_ainsert_self, h]
  · simp [TokenManager.revoke_token, TokenManager.generate_token, alookup_ainsert_self]
  · simp [TokenManager.validate_token, TokenManager.revoke_token,
      TokenManager.generate_token, alookup_aremove_self]
  · simp [TokenManager.revoke_token, TokenManager.generate_token, alookup_aremove_self]
  · intro tk hlook hexp
    simp [TokenManager.validate_token, hlook, Nat.not_lt.mpr hexp]
  · intro hlook
    simp [TokenManager.validate_token, hlook]

theorem c4_token_lifecycle_witness :
    (10 : Nat) < 0 + 3600 ∧
    TokenManager.validate_token
        (TokenManager.generate_token [] (("t").data) (("u").data) 0).1 (("t").data) 10
      = ((TokenManager.generate_token [] (("t").data) (("u").data) 0).1, some (("u").data)) ∧
    alookup (("e").data) [((("e").data), AuthToken.mk (("e").data) (("w").data) 5)]
      = some (AuthToken.mk (("e").data) (("w").data) 5) ∧
    TokenManager.validate_token
        [((("e").data), AuthToken.mk (("e").data) (("w").data) 5)] (("e").data) 10
      = (aremove (("e").data) [((("e").data), AuthToken.mk (("e").data) (("w").data) 5)],
          none) ∧
    alookup (("a").data) ([] : TokenStore) = none ∧
    TokenManager.validate_token ([] : TokenStore) (("a").data) 10 = (([] : TokenStore), none) :=
  ⟨by decide,
   (c4_token_lifecycle [] (("t").data) (("u").data) 0 10).2.1 (by decide),
   by decide,
   (c4_token_lifecycle [((("e").data), AuthToken.mk (("e").data) (("w").data) 5)]
      (("e").data) (("w").data) 0 10).2.2.2.2.2.1
      (AuthToken.mk (("e").data) (("w").data) 5) (by decide) (by decide),
   by decide,
   (c4_token_lifecycle ([] : TokenStore) (("a").data) (("w").data) 0 10).2.2.2.2.2.2
      (by decide)⟩

/-- C2: whenever the textual file path resolved by the static-file
resolver contains the substring `..`, `serve_static_file` answers the
403 traversal response for every possible state of the file system and
directory renderer, and its file-system access log is empty: the
rejection happens before any file-system operation, whether or not the
target exists. -/
theorem c2_traversal_rejected (fs : Str → FsEntry) (listing : Str → Str → HttpResponse)
    (sd path : Str)
    (h : containsSeq (("..").data) (Router.resolve_static_path sd path) = true) :
    Router.serve_static_file fs listing (some sd) path =
      (some (((HttpResponse.new 403 (("Forbidden").data)).with_content_type
        (("text/html").data)).with_body
        (("<h1>403 - Forbidden</h1><p>Directory traversal is not allowed.</p>").data)), []) := by
  simp [Router.serve_static_file, h]

theorem c2_traversal_rejected_witness :
    containsSeq (("..").data)
      (Router.resolve_static_path (("static").data) (("/static/../secret").data)) = true ∧
    Router.serve_static_file (fun _ => FsEntry.file (("secret file").data))
      (fun _ _ => HttpResponse.new 200 (("OK").data))
      (some (("static").data)) (("/static/../secret").data) =
      (some (((HttpResponse.new 403 (("Forbidden").data)).with_content_type
        (("text/html").data)).with_body
        (("<h1>403 - Forbidden</h1><p>Directory traversal is not allowed.</p>").data)), []) :=
  ⟨by decide,
   c2_traversal_rejected (fun _ => FsEntry.file (("secret file").data))
     (fun _ _ => HttpResponse.new 200 (("OK").data))
     (("static").data) (("/static/../secret").data) (by decide)⟩

theorem hex_encode_cons (b : Nat) (rest : List Nat) :
    hex_encode (b :: rest)
      = hexDigit false (b / 16 % 16) :: hexDigit false (b % 16) :: hex_encode rest := by
  simp [hex_encode]

theorem hexDigit_ne_colon : ∀ (upper : Bool) (d : Nat), d < 16 →
    (hexDigit upper d == ':') = false := by
  decide

theorem hex_encode_no_colon (bytes : List Nat) :
    ∀ c ∈ hex_encode bytes, (c == ':') = false := by
  induction bytes with
  | nil => intro c hc; simp [hex_encode] at hc
  | cons b rest ih =>
    intro c hc
    rw [hex_encode_cons] at hc
    simp only [List.mem_cons] at hc
    rcases hc with hc | hc | hc
    · subst hc; exact hexDigit_ne_colon false _ (Nat.mod_lt _ (by omega))
    · subst hc; exact hexDigit_ne_colon false _ (Nat.mod_lt _ (by omega))
    · exact ih c hc

theorem splitOnceChar_append {sep : Char} :
    ∀ (a b : Str), (∀ c ∈ a, (c == sep) = false) →
      splitOnceChar sep (a ++ sep :: b) = some (a, b) := by
  intro a
  induction a with
  | nil => intro b _; simp [splitOnceChar]
  | cons c rest ih =>
    intro b hno
    have hc : (c == sep) = false := hno c (by simp)
    have hrec := ih b (fun x hx => hno x (by simp [hx]))
    simp only [List.cons_append, splitOnceChar, hc, Bool.false_eq_true, if_false,
      List.append_eq, hrec]

theorem hex_encode_length (bytes : List Nat) :
    (hex_encode bytes).length = 2 * bytes.length := by
  induction bytes with
  | nil => rfl
  | cons b rest ih =>
    rw [hex_encode_cons]
    simp [ih]
    omega

theorem hexDecodePairs_hex_encode (bytes : List Nat) (hb : ∀ b ∈ bytes, b < 256) :
    hexDecodePairs (hex_encode bytes) = .ok bytes := by
  induction bytes with
  | nil => rfl
  | cons b rest ih =>
    have hblt : b < 256 := hb b (by simp)
    have h1 : b / 16 % 16 < 16 := Nat.mod_lt _ (by omega)
    have h2 : b % 16 < 16 := Nat.mod_lt _ (by omega)
    rw [hex_encode_cons]
    simp only [hexDecodePairs, parseHexDigit_hexDigit false _ h1,
      parseHexDigit_hexDigit false _ h2, ih (fun x hx => hb x (by simp [hx]))]
    have : 16 * (b / 16 % 16) + b % 16 = b := by omega
    rw [this]

theorem hex_decode_hex_encode (bytes : List Nat) (hb : ∀ b ∈ bytes, b < 256) :
    hex_decode (hex_encode bytes) = .ok bytes := by
  rw [hex_decode, hex_encode_length]
  simp [Nat.mul_mod_right, hexDecodePairs_hex_encode bytes hb]

/-- C10: hashing a password with a 16-byte salt and then verifying the
same password against the stored `saltHex:hashHex` string succeeds; and
verifying any password against that stored hash fails exactly when the
recomputed hash value differs from the stored one.  This holds for every
abstract hash function standing in for the standard hasher. -/
theorem c10_password_hash_roundtrip (hashFn : List Nat → Str → Nat) (p1 p2 : Str)
    (salt : List Nat) (hlen : salt.length = 16) (hbyte : ∀ b ∈ salt, b < 256) :
    verify_password hashFn p1 (hash_password hashFn p1 salt) = true ∧
    (verify_password hashFn p2 (hash_password hashFn p1 salt) = false ↔
      hashFn salt p2 ≠ hashFn salt p1) := by
  have hsplit : splitOnceChar ':' (hash_password hashFn p1 salt)
      = some (hex_encode salt, hexPad16 (hashFn salt p1)) := by
    rw [hash_password]
    exact splitOnceChar_append _ _ (hex_encode_no_colon salt)
  have hdec := hex_decode_hex_encode salt hbyte
  constructor
  · simp [verify_password, hsplit, hdec]
  · rw [verify_password, hsplit]
    simp only [hdec]
    rw [beq_eq_false_iff_ne]
    exact not_congr ⟨hexPad16_injective, fun h => by rw [h]⟩

theorem c10_password_hash_roundtrip_witness :
    (List.replicate 16 1).length = 16 ∧
    (∀ b ∈ List.replicate 16 1, b < 256) ∧
    (verify_password (fun s p => s.length + p.length) (("pw").data)
      (hash_password (fun s p => s.length + p.length) (("pw").data)
        (List.replicate 16 1)) = true ∧
    (verify_password (fun s p => s.length + p.length) (("word").data)
      (hash_password (fun s p => s.length + p.length) (("pw").data)
        (List.replicate 16 1)) = false ↔
      (List.replicate 16 1).length + (("word").data).length
        ≠ (List.replicate 16 1).length + (("pw").data).length)) :=
  ⟨by decide, by decide,
   c10_password_hash_roundtrip (fun s p => s.length + p.length)
     (("pw").data) (("word").data) (List.replicate 16 1) (by decide) (by decide)⟩

/-- C6: `handle_login` answers byte-for-byte identical 401 responses for
a login naming an unknown user and a login naming an existing user with
a password that fails hash verification: same status code, same headers
and same generic error body, so the two failure causes cannot be told
apart. -/
theorem c6_login_non_enumeration (hashFn : List Nat → Str → Nat)
    (auth_users : List (Str × Str)) (freshTok b1 b2 u1 p1 u2 p2 stored : Str)
    (hp1 : parse_login_request b1 = some (u1, p1))
    (habs : alookup u1 auth_users = none)
    (hp2 : parse_login_request b2 = some (u2, p2))
    (hpres : alookup u2 auth_users = some stored)
    (hfail : verify_password hashFn p2 stored = false) :
    Router.handle_login hashFn auth_users freshTok (("POST").data) b1
      = Router.handle_login hashFn auth_users freshTok (("POST").data) b2 ∧
    (Router.handle_login hashFn auth_users freshTok (("POST").data) b1).status_code = 401 ∧
    (Router.handle_login hashFn auth_users freshTok (("POST").data) b1).body
      = create_error_response (("Invalid username or password").data) := by
  refine ⟨?_, ?_, ?_⟩ <;>
    simp [Router.handle_login, hp1, hp2, habs, hpres, hfail,
      HttpResponse.with_body, HttpResponse.with_content_type, HttpResponse.with_header,
      HttpResponse.new]

theorem c6_login_non_enumeration_witness :
    parse_login_request (("\x7b\"username\":\"alice\",\"password\":\"pw\"\x7d").data)
      = some ((("alice").data), (("pw").data)) ∧
    alookup (("alice").data) [((("bob").data), (("nohash").data))] = none ∧
    parse_login_request (("\x7b\"username\":\"bob\",\"password\":\"pw\"\x7d").data)
      = some ((("bob").data), (("pw").data)) ∧
    alookup (("bob").data) [((("bob").data), (("nohash").data))]
      = some (("nohash").data) ∧
    verify_password (fun _ _ => 0) (("pw").data) (("nohash").data) = false ∧
    (Router.handle_login (fun _ _ => 0) [((("bob").data), (("nohash").data))] (("t").data)
        (("POST").data) (("\x7b\"username\":\"alice\",\"password\":\"pw\"\x7d").data)
      = Router.handle_login (fun _ _ => 0) [((("bob").data), (("nohash").data))] (("t").data)
        (("POST").data) (("\x7b\"username\":\"bob\",\"password\":\"pw\"\x7d").data) ∧
    (Router.handle_login (fun _ _ => 0) [((("bob").data), (("nohash").data))] (("t").data)
        (("POST").data)
        (("\x7b\"username\":\"alice\",\"password\":\"pw\"\x7d").data)).status_code = 401 ∧
    (Router.handle_login (fun _ _ => 0) [((("bob").data), (("nohash").data))] (("t").data)
        (("POST").data)
        (("\x7b\"username\":\"alice\",\"password\":\"pw\"\x7d").data)).body
      = create_error_response (("Invalid username or password").data)) :=
  ⟨by decide, by decide, by decide, by decide, by decide,
   c6_login_non_enumeration (fun _ _ => 0) [((("bob").data), (("nohash").data))]
     (("t").data) (("\x7b\"username\":\"alice\",\"password\":\"pw\"\x7d").data)
     (("\x7b\"username\":\"bob\",\"password\":\"pw\"\x7d").data)
     (("alice").data) (("pw").data) (("bob").data) (("pw").data) (("nohash").data)
     (by decide) (by decide) (by decide) (by decide) (by decide)⟩

/-- C7: `HttpRequest::parse` fails with the empty-request error exactly
when the input has no lines (the empty input), fails with the
request-line error whenever the first line does not split into exactly
three whitespace-separated tokens, and succeeds for every input whose
first line has exactly three tokens, taking them verbatim as method,
path and version with no validation of the method or version token. -/
theorem c7_request_line_tokens (s : Str) :
    (rustLines s = [] → HttpRequest.parse s = .error (("Empty request").data)) ∧
    (∀ l0 rest, rustLines s = l0 :: rest →
      ((splitWhitespace l0).length ≠ 3 →
        HttpRequest.parse s = .error (("Invalid request line").data)) ∧
      (∀ m p v, splitWhitespace l0 = [m, p, v] →
        ∃ r, HttpRequest.parse s = .ok r ∧ r.method = m ∧ r.path = p ∧ r.version = v)) := by
  constructor
  · intro hL
    simp [HttpRequest.parse, hL]
  · intro l0 rest hL
    constructor
    · intro hlen
      simp only [HttpRequest.parse]
      rw [hL]
      dsimp only
      rcases hW : splitWhitespace l0 with _ | ⟨a, _ | ⟨b, _ | ⟨c, _ | ⟨d, tl⟩⟩⟩⟩
      · rfl
      · rfl
      · rfl
      · simp [hW] at hlen
      · rfl
    · intro m p v hW
      simp only [HttpRequest.parse]
      rw [hL]
      dsimp only
      rw [hW]
      exact ⟨_, rfl, rfl, rfl, rfl⟩

theorem c7_request_line_tokens_witness :
    HttpRequest.parse (("").data) = .error (("Empty request").data) ∧
    HttpRequest.parse (("GET\r\n").data) = .error (("Invalid request line").data) ∧
    (∃ r, HttpRequest.parse (("FOO /x HTTP/9.9\r\nHost: h\r\n\r\n").data) = .ok r ∧
      r.method = ("FOO").data ∧ r.path = ("/x").data ∧ r.version = ("HTTP/9.9").data) :=
  ⟨(c7_request_line_tokens (("").data)).1 (by decide),
   ((c7_request_line_tokens (("GET\r\n").data)).2 (("GET").data) [] (by decide)).1 (by decide),
   ((c7_request_line_tokens (("FOO /x HTTP/9.9\r\nHost: h\r\n\r\n").data)).2
      (("FOO /x HTTP/9.9").data) [(("Host: h").data), []] (by decide)).2
      (("FOO").data) (("/x").data) (("HTTP/9.9").data) (by decide)⟩

/-- C8 counterexample: the 408 timeout error response that the
connection handler writes is built with only `Content-Type` and
`Content-Length` headers and carries no `Connection` header at all, so
the `Connection: keep-alive|close` header is NOT always set on
responses. -/
theorem c8_timeout_response_lacks_connection :
    alookup (("Connection").data) timeout_response.headers = none := by
  decide

/-- C8 amended: for every request that parses, the per-request step of
the connection handler stamps the response with a `Connection` header
that is exactly `keep-alive` when the request's lowercased `Connection`
header contains `keep-alive` and exactly `close` otherwise, where a
missing request header defaults to `keep-alive` for version `HTTP/1.1`
and to `close` for any other version; the 400 response to an unparsable
request carries `Connection: close`; only the 408 timeout response is
emitted without a `Connection` header. -/
theorem c8_connection_header (routeFn : HttpRequest → HttpResponse) (data : Str) :
    (∀ req, HttpRequest.parse data = .ok req →
      alookup (("Connection").data) (handle_request_cycle routeFn data).1.headers
        = some (if containsSeq (("keep-alive").data) (connection_header_of req) = true
            then ("keep-alive").data else ("close").data)) ∧
    (∀ e, HttpRequest.parse data = .error e →
      alookup (("Connection").data) (handle_request_cycle routeFn data).1.headers
        = some (("close").data)) ∧
    (∀ req : HttpRequest, alookup (("connection").data) req.headers = none →
      req.version = ("HTTP/1.1").data → connection_header_of req = ("keep-alive").data) ∧
    (∀ req : HttpRequest, alookup (("connection").data) req.headers = none →
      req.version ≠ ("HTTP/1.1").data → connection_header_of req = ("close").data) ∧
    alookup (("Connection").data) timeout_response.headers = none := by
  refine ⟨?_, ?_, ?_, ?_, by decide⟩
  · intro req h
    simp only [handle_request_cycle, h]
    by_cases hka : containsSeq (("keep-alive").data) (connection_header_of req) = true
    · simp [hka, HttpResponse.with_connection, HttpResponse.with_header, alookup_ainsert_self]
    · simp [hka, HttpResponse.with_connection, HttpResponse.with_header, alookup_ainsert_self]
  · intro e h
    simp only [handle_request_cycle, h]
    decide
  · intro req h hv
    simp [connection_header_of, h, hv]
  · intro req h hv
    simp [connection_header_of, h, hv]

theorem c8_connection_header_witness :
    HttpRequest.parse (("GET /x HTTP/1.1\r\n\r\n").data)
      = .ok (HttpRequest.mk (("GET").data) (("/x").data) (("HTTP/1.1").data) [] []) ∧
    alookup (("Connection").data)
      (handle_request_cycle (fun _ => HttpResponse.new 200 (("OK").data))
        (("GET /x HTTP/1.1\r\n\r\n").data)).1.headers
      = some (if containsSeq (("keep-alive").data)
            (connection_header_of
              (HttpRequest.mk (("GET").data) (("/x").data) (("HTTP/1.1").data) [] [])) = true
          then ("keep-alive").data else ("close").data) ∧
    HttpRequest.parse (("GET\r\n").data) = .error (("Invalid request line").data) ∧
    alookup (("Connection").data)
      (handle_request_cycle (fun _ => HttpResponse.new 200 (("OK").data))
        (("GET\r\n").data)).1.headers = some (("close").data) :=
  ⟨rfl,
   (c8_connection_header (fun _ => HttpResponse.new 200 (("OK").data))
      (("GET /x HTTP/1.1\r\n\r\n").data)).1
      (HttpRequest.mk (("GET").data) (("/x").data) (("HTTP/1.1").data) [] []) rfl,
   rfl,
   (c8_connection_header (fun _ => HttpResponse.new 200 (("OK").data))
      (("GET\r\n").data)).2.1 (("Invalid request line").data) rfl⟩

theorem takeWhile_append_all (p : Char → Bool) :
    ∀ (a b : Str), (∀ x ∈ a, p x = true) → (a ++ b).takeWhile p = a ++ b.takeWhile p := by
  intro a
  induction a with
  | nil => intro b _; simp
  | cons c rest ih =>
    intro b hall
    have hc : p c = true := hall c (by simp)
    simp [List.takeWhile, hc, ih b (fun x hx => hall x (by simp [hx]))]

theorem takeWhile_append_stops (p : Char → Bool) :
    ∀ (a b : Str), (∃ x ∈ a, p x = false) → (a ++ b).takeWhile p = a.takeWhile p := by
  intro a
  induction a with
  | nil => intro b h; simp at h
  | cons c rest ih =>
    intro b hex
    by_cases hc : p c = true
    · have : ∃ x ∈ rest, p x = false := by
        rcases hex with ⟨x, hx, hpx⟩
        rcases List.mem_cons.mp hx with rfl | hx2
        · rw [hc] at hpx; simp at hpx
        · exact ⟨x, hx2, hpx⟩
      simp [List.takeWhile, hc, ih b this]
    · have hc2 : p c = false := by revert hc; cases p c <;> simp
      simp [List.takeWhile, hc2]

theorem scanLine_spec :
    ∀ (buffer line : Str),
      scanLine buffer line =
        if '\n' ∈ buffer then
          Sum.inl (line ++ ((buffer.takeWhile (fun c => !(c == '\n'))).filter
              (fun c => !(c == '\r'))),
            (buffer.dropWhile (fun c => !(c == '\n'))).tail)
        else Sum.inr (line ++ buffer.filter (fun c => !(c == '\r'))) := by
  intro buffer
  induction buffer with
  | nil => intro line; simp [scanLine]
  | cons b bs ih =>
    intro line
    by_cases hb : b = '\n'
    · subst hb
      simp [scanLine, List.takeWhile, List.dropWhile]
    · by_cases hr : b = '\r'
      · subst hr
        simp [scanLine, ih, List.takeWhile, List.dropWhile, hb]
      · have hbB : (b == '\n') = false := by simp [hb]
        have hrB : (b == '\r') = false := by simp [hr]
        have hb2 : ¬('\n' = b) := fun h => hb h.symm
        simp [scanLine, hb, hr, hbB, hrB, hb2, ih, List.takeWhile, List.dropWhile,
          List.append_assoc]

theorem readLineChunks_spec :
    ∀ (chunks : List Str) (line : Str), (∀ c ∈ chunks, c ≠ []) →
      (readLineChunks chunks line).1 =
        if '\n' ∈ chunks.join then
          .ok (line ++ ((chunks.join.takeWhile (fun c => !(c == '\n'))).filter
            (fun c => !(c == '\r'))))
        else if line ++ chunks.join.filter (fun c => !(c == '\r')) = [] then .error ()
        else .ok (line ++ chunks.join.filter (fun c => !(c == '\r'))) := by
  intro chunks
  induction chunks with
  | nil =>
    intro line _
    by_cases hl : line = [] <;> simp [readLineChunks, hl]
  | cons c rest ih =>
    intro line hne
    have hc : c ≠ [] := hne c (by simp)
    have hcE : c.isEmpty = false := by
      cases c with
      | nil => exact absurd rfl hc
      | cons x xs => rfl
    by_cases hmem : '\n' ∈ c
    · have hstops : ∃ x ∈ c, (fun a => !(a == '\n')) x = false := ⟨'\n', hmem, by simp⟩
      simp only [readLineChunks, hcE, Bool.false_eq_true, if_false,
        scanLine_spec c line, hmem, if_pos, List.join_cons, List.mem_append,
        true_or, takeWhile_append_stops _ c _ hstops]
    · have hall : ∀ x ∈ c, (fun a => !(a == '\n')) x = true := by
        intro x hx
        by_cases hxn : x = '\n'
        · subst hxn; exact absurd hx hmem
        · simp [hxn]
      simp only [readLineChunks, hcE, Bool.false_eq_true, if_false,
        scanLine_spec c line, hmem, if_neg, ih _ (fun x hx => hne x (by simp [hx])),
        List.join_cons, List.mem_append, takeWhile_append_all _ c _ hall,
        List.filter_append, List.append_assoc]
      by_cases hmem2 : '\n' ∈ rest.join <;> simp [hmem2, List.append_assoc]

/-- C9 counterexample: `read_line` strips every carriage return it
scans, not only the one directly preceding the newline.  On a stream
whose next bytes are `a CR b LF c d` it returns the line `ab`, where the
claim requires `a CR b`. -/
theorem c9_read_line_strips_interior_cr :
    (BufferedStream.read_line (BufferedStream.mk [] [("a\rb\ncd").data])).1
      = .ok (("ab").data) ∧
    ("ab").data ≠ ("a\rb").data :=
  ⟨rfl, by decide⟩

/-- C9 amended: `read_line` scans for the first newline across buffer
refills (its result depends only on the concatenation of the buffered
bytes and the stream chunks, not on the chunking), strips EVERY carriage
return from the returned line (in particular the one preceding the
newline), and, when the stream ends with no newline, returns the
remaining non-CR bytes as a line, or the end-of-stream error - distinct
from any found line - when none are left. -/
theorem c9_read_line_characterization (st : BufferedStream)
    (hne : ∀ c ∈ st.chunks, c ≠ []) :
    (BufferedStream.read_line st).1 =
      if '\n' ∈ st.buffer ++ st.chunks.join then
        .ok (((st.buffer ++ st.chunks.join).takeWhile (fun c => !(c == '\n'))).filter
          (fun c => !(c == '\r')))
      else if (st.buffer ++ st.chunks.join).filter (fun c => !(c == '\r')) = [] then
        .error ()
      else .ok ((st.buffer ++ st.chunks.join).filter (fun c => !(c == '\r'))) := by
  obtain ⟨buffer, chunks⟩ := st
  have hne2 : ∀ c ∈ chunks, c ≠ [] := hne
  simp only [BufferedStream.read_line, readLineAux, scanLine_spec buffer []]
  by_cases hmem : '\n' ∈ buffer
  · have hstops : ∃ x ∈ buffer, (fun a => !(a == '\n')) x = false := ⟨'\n', hmem, by simp⟩
    have hmem2 : '\n' ∈ buffer ++ chunks.join := List.mem_append.mpr (Or.inl hmem)
    rw [if_pos hmem]
    simp only []
    rw [if_pos hmem2, takeWhile_append_stops _ buffer _ hstops]
    simp
  · have hall : ∀ x ∈ buffer, (fun a => !(a == '\n')) x = true := by
      intro x hx
      by_cases hxn : x = '\n'
      · subst hxn; exact absurd hx hmem
      · simp [hxn]
    rw [if_neg hmem]
    simp only []
    rw [readLineChunks_spec chunks _ hne2]
    by_cases hmem2 : '\n' ∈ chunks.join
    · rw [if_pos hmem2, if_pos (List.mem_append.mpr (Or.inr hmem2)),
        takeWhile_append_all _ buffer _ hall, List.filter_append]
      simp [List.append_assoc]
    · have hnot : '\n' ∉ buffer ++ chunks.join := by
        simp [List.mem_append, hmem, hmem2]
      rw [if_neg hmem2, if_neg hnot, List.filter_append]
      simp [List.append_assoc]

theorem c9_read_line_characterization_witness :
    (∀ c ∈ (BufferedStream.mk (("xy").data) [("a\rb\ncd").data]).chunks, c ≠ []) ∧
    (BufferedStream.read_line (BufferedStream.mk (("xy").data) [("a\rb\ncd").data])).1
      = .ok (("xyab").data) := by
  refine ⟨by decide, ?_⟩
  have h := c9_read_line_characterization
    (BufferedStream.mk (("xy").data) [("a\rb\ncd").data]) (by decide)
  simpa using h

theorem hexDigit_ne_cr : ∀ (upper : Bool) (d : Nat), d < 16 → hexDigit upper d ≠ '\r' := by
  decide

theorem toHex_no_cr (upper : Bool) : ∀ n, ∀ c ∈ toHex upper n, c ≠ '\r' := by
  intro n
  induction n using Nat.strong_induction_on with
  | _ n ih =>
    intro c hc
    by_cases h : n < 16
    · rw [toHex] at hc
      simp [h] at hc
      subst hc
      exact hexDigit_ne_cr upper n h
    · rw [toHex] at hc
      simp [h] at hc
      rcases hc with hc | hc
      · exact ih (n / 16) (Nat.div_lt_self (by omega) (by omega)) c hc
      · subst hc
        exact hexDigit_ne_cr upper _ (Nat.mod_lt _ (by omega))

theorem splitCRLF_append :
    ∀ (a b : Str), (∀ c ∈ a, c ≠ '\r') → splitCRLF (a ++ '\r' :: '\n' :: b) = some (a, b) := by
  intro a
  induction a with
  | nil => intro b _; simp [splitCRLF]
  | cons c rest ih =>
    intro b hno
    have hc : c ≠ '\r' := hno c (by simp)
    have hcond : ¬(c = '\r' ∧ (rest ++ '\r' :: '\n' :: b).head? = some '\n') := by
      intro h
      exact hc h.1
    simp [splitCRLF, hcond, ih b (fun x hx => hno x (by simp [hx]))]
    intro h
    exact absurd h hc

theorem reassembleFuel_zero (fuel : Nat) :
    reassembleChunksFuel (fuel + 1) (('0') :: '\r' :: '\n' :: '\r' :: '\n' :: []) = some [] :=
  rfl

theorem reassembleFuel_chunk (body : Str) (hb : body ≠ []) (fuel : Nat) :
    reassembleChunksFuel (fuel + 2)
      (toHex true body.length ++ '\r' :: '\n' ::
        (body ++ '\r' :: '\n' :: '0' :: '\r' :: '\n' :: '\r' :: '\n' :: []))
      = some body := by
  have hL : body.length ≠ 0 := by simpa using hb
  have hsplit := splitCRLF_append (toHex true body.length)
    (body ++ '\r' :: '\n' :: '0' :: '\r' :: '\n' :: '\r' :: '\n' :: [])
    (toHex_no_cr true body.length)
  have hdrop : (body ++ '\r' :: '\n' :: '0' :: '\r' :: '\n' :: '\r' :: '\n' :: ([] : Str)).drop
      body.length = '\r' :: '\n' :: '0' :: '\r' :: '\n' :: '\r' :: '\n' :: [] :=
    List.drop_left body _
  have htake : (body ++ '\r' :: '\n' :: '0' :: '\r' :: '\n' :: '\r' :: '\n' :: ([] : Str)).take
      body.length = body :=
    List.take_left body _
  have hlen : body.length
      ≤ (body ++ '\r' :: '\n' :: '0' :: '\r' :: '\n' :: '\r' :: '\n' :: ([] : Str)).length := by
    simp
  show reassembleChunksFuel (fuel + 1 + 1) _ = _
  rw [reassembleChunksFuel]
  rw [hsplit]
  simp only [parseHexNat_toHex]
  rw [if_neg hL]
  rw [if_pos ⟨hlen, by rw [hdrop]; rfl⟩]
  rw [hdrop]
  show (match reassembleChunksFuel (fuel + 1)
      (('0') :: '\r' :: '\n' :: '\r' :: '\n' :: []) with
    | some tail =>
        some ((body ++ '\r' :: '\n' :: '0' :: '\r' :: '\n' :: '\r' :: '\n' :: ([] : Str)).take
          body.length ++ tail)
    | none => none) = some body
  rw [reassembleFuel_zero fuel, htake]
  simp

theorem reassembleChunks_chunkStream (body : Str) :
    reassembleChunks (HttpResponse.chunkStream body) = some body := by
  by_cases hb : body = []
  · subst hb
    rfl
  · have hbE : body.isEmpty = false := by
      cases body with
      | nil => exact absurd rfl hb
      | cons x xs => rfl
    have e1 : ((("\r\n").data) : Str) = ['\r', '\n'] := rfl
    have e2 : ((("0\r\n\r\n").data) : Str) = ['0', '\r', '\n', '\r', '\n'] := rfl
    have hform : HttpResponse.chunkStream body
        = toHex true body.length ++ '\r' :: '\n' ::
          (body ++ '\r' :: '\n' :: '0' :: '\r' :: '\n' :: '\r' :: '\n' :: []) := by
      simp [HttpResponse.chunkStream, hbE, e1, e2, List.append_assoc]
    rw [reassembleChunks, hform]
    have hge : 1 ≤ (toHex true body.length ++ '\r' :: '\n' ::
        (body ++ '\r' :: '\n' :: '0' :: '\r' :: '\n' :: '\r' :: '\n' :: ([] : Str))).length := by
      simp
      omega
    have hK : (toHex true body.length ++ '\r' :: '\n' ::
        (body ++ '\r' :: '\n' :: '0' :: '\r' :: '\n' :: '\r' :: '\n' :: ([] : Str))).length + 1
        = ((toHex true body.length ++ '\r' :: '\n' ::
          (body ++ '\r' :: '\n' :: '0' :: '\r' :: '\n' :: '\r' :: '\n' :: ([] : Str))).length
            - 1) + 2 := by
      omega
    rw [hK]
    exact reassembleFuel_chunk body hb _

/-- Header pairs the chunked encoder emits: the response headers that
survive the exclusion filter, then the unconditional
`Transfer-Encoding: chunked` pair. -/
def HttpResponse.chunkedHeaderPairs (r : HttpResponse) : List (Str × Str) :=
  r.headers.filter HttpResponse.chunkedHeaderKept
    ++ [((("Transfer-Encoding").data), (("chunked").data))]

theorem chunkedHeaderKept_not_cl {kv : Str × Str}
    (h : HttpResponse.chunkedHeaderKept kv = true) :
    (toLowerStr kv.1 == ("content-length").data) = false := by
  rw [HttpResponse.chunkedHeaderKept] at h
  simp at h
  exact beq_eq_false_iff_ne.mpr h.1

theorem chunkedHeaderKept_not_te {kv : Str × Str}
    (h : HttpResponse.chunkedHeaderKept kv = true) :
    (toLowerStr kv.1 == ("transfer-encoding").data) = false := by
  rw [HttpResponse.chunkedHeaderKept] at h
  simp at h
  exact beq_eq_false_iff_ne.mpr h.2

theorem format_chunked_decomposition (r : HttpResponse) :
    HttpResponse.format_chunked r
      = HttpResponse.statusLine r
        ++ ((HttpResponse.chunkedHeaderPairs r).map HttpResponse.headerLine).join
        ++ ("\r\n").data ++ HttpResponse.chunkStream r.body := by
  have hTE : HttpResponse.headerLine ((("Transfer-Encoding").data), (("chunked").data))
      = ("Transfer-Encoding: chunked\r\n").data := by decide
  simp [HttpResponse.format_chunked, HttpResponse.chunkedHeaderPairs, hTE,
    List.map_append, List.append_assoc]

/-- C3: the chunked encoder emits, after the status line, exactly the
headers that survive the case-insensitive exclusion of `Content-Length`
and `Transfer-Encoding`, followed by exactly one
`Transfer-Encoding: chunked` header, a blank line and the chunk stream;
a non-empty body becomes a single chunk of the uppercase hex byte
length, CRLF, the body bytes and CRLF; the message always ends with the
`0 CRLF CRLF` final-chunk marker even for an empty body; and reassembling
all chunk payloads in order restores the original body bytes exactly. -/
theorem c3_format_chunked_roundtrip (r : HttpResponse) :
    HttpResponse.format_chunked r
      = HttpResponse.statusLine r
        ++ ((HttpResponse.chunkedHeaderPairs r).map HttpResponse.headerLine).join
        ++ ("\r\n").data ++ HttpResponse.chunkStream r.body ∧
    (HttpResponse.chunkedHeaderPairs r).countP
        (fun kv => toLowerStr kv.1 == ("transfer-encoding").data) = 1 ∧
    (HttpResponse.chunkedHeaderPairs r).countP
        (fun kv => toLowerStr kv.1 == ("content-length").data) = 0 ∧
    (r.body ≠ [] → HttpResponse.chunkStream r.body
      = toHex true r.body.length ++ ("\r\n").data ++ r.body ++ ("\r\n").data
        ++ ("0\r\n\r\n").data) ∧
    (∃ t, HttpResponse.format_chunked r = t ++ ("0\r\n\r\n").data) ∧
    reassembleChunks (HttpResponse.chunkStream r.body) = some r.body := by
  refine ⟨format_chunked_decomposition r, ?_, ?_, ?_, ?_, reassembleChunks_chunkStream r.body⟩
  · rw [HttpResponse.chunkedHeaderPairs, List.countP_append]
    have h0 : (r.headers.filter HttpResponse.chunkedHeaderKept).countP
        (fun kv => toLowerStr kv.1 == ("transfer-encoding").data) = 0 := by
      rw [List.countP_eq_zero]
      intro kv hkv
      simp [chunkedHeaderKept_not_te (List.of_mem_filter hkv)]
    rw [h0]
    rfl
  · rw [HttpResponse.chunkedHeaderPairs, List.countP_append]
    have h0 : (r.headers.filter HttpResponse.chunkedHeaderKept).countP
        (fun kv => toLowerStr kv.1 == ("content-length").data) = 0 := by
      rw [List.countP_eq_zero]
      intro kv hkv
      simp [chunkedHeaderKept_not_cl (List.of_mem_filter hkv)]
    rw [h0]
    rfl
  · intro hb
    have hbE : r.body.isEmpty = false := by
      cases hc : r.body with
      | nil => exact absurd hc hb
      | cons x xs => rfl
    simp [HttpResponse.chunkStream, hbE, List.append_assoc]
  · refine ⟨HttpResponse.statusLine r
      ++ ((r.headers.filter HttpResponse.chunkedHeaderKept).map HttpResponse.headerLine).join
      ++ ("Transfer-Encoding: chunked\r\n").data ++ ("\r\n").data
      ++ (if r.body.isEmpty then []
          else toHex true r.body.length ++ ("\r\n").data ++ r.body ++ ("\r\n").data), ?_⟩
    simp [HttpResponse.format_chunked, HttpResponse.chunkStream, List.append_assoc]

theorem c3_format_chunked_roundtrip_witness :
    ((("hi").data : Str) ≠ []) ∧
    HttpResponse.chunkStream (("hi").data)
      = toHex true (("hi").data).length ++ ("\r\n").data ++ ("hi").data ++ ("\r\n").data
        ++ ("0\r\n\r\n").data ∧
    reassembleChunks
      (HttpResponse.chunkStream
        (HttpResponse.mk 200 (("OK").data) [] (("hi").data)).body)
      = some (("hi").data) :=
  ⟨by decide,
   (c3_format_chunked_roundtrip (HttpResponse.mk 200 (("OK").data) [] (("hi").data))).2.2.2.1
     (by decide),
   (c3_format_chunked_roundtrip (HttpResponse.mk 200 (("OK").data) [] (("hi").data))).2.2.2.2.2⟩
